import Mathlib

/-!
Shallow embedding of the AtlanAssist core: the bulk classification cache
pipeline (`load_or_classify_all_tickets` in `app.py`), the retrieval-augmented
answer stream (`get_rag_response_stream` in `modules/rag.py`), the retriever
loader (`get_rag_chain`), the JSON persistence of the classification cache,
and the topic-routing decision of the two interactive views in `app.py`.
Model calls, the vector store and the file system are abstracted as explicit
function parameters; everything else is translated directly from the source.
-/

/-- A support ticket as read from `data/sample_tickets.json`:
`{id, subject, body}`. -/
structure Ticket where
  id : String
  subject : String
  body : String
deriving Repr, DecidableEq

/-- The structured classifier output schema (`modules/classification.py`,
class `TicketClassification`). -/
structure Classification where
  topic_tags : List String
  sentiment : String
  priority : String
  summary : String
  suggested_action : String
deriving Repr, DecidableEq

/-- One element of the persisted classification cache: the dict appended to
`results` in `load_or_classify_all_tickets`
(`{"id", "subject", "body", "classification"}`). -/
structure ClassifiedTicketRecord where
  id : String
  subject : String
  body : String
  classification : Classification
deriving Repr, DecidableEq

/-- The text handed to the classifier chain for a ticket:
`f"{ticket['subject']}\n\n{ticket['body']}"`. -/
def ticketText (ticket : Ticket) : String :=
  ticket.subject ++ "\n\n" ++ ticket.body

/-- Observable side effects of one bulk-classification run: the fixed
`time.sleep(4)` delay, and a classifier invocation for the ticket at a given
0-based index. -/
inductive PipelineEvent where
  | sleep : PipelineEvent
  | call (i : Nat) : PipelineEvent
deriving Repr, DecidableEq

/-- The record built on a successful classification of ticket `t`. -/
def recordFor (t : Ticket) (c : Classification) : ClassifiedTicketRecord :=
  { id := t.id, subject := t.subject, body := t.body, classification := c }

/-- The classification value inside an `ok` result (junk on `error`; only used
under a hypothesis that the result is `ok`). -/
def okValue (e : Except String Classification) : Classification :=
  match e with
  | .ok c => c
  | .error _ =>
    { topic_tags := [], sentiment := "", priority := "", summary := "",
      suggested_action := "" }

/-- The record the bulk loop appends for ticket `t` when its classification
succeeds. -/
def recordOf (classify : String → Except String Classification) (t : Ticket) :
    ClassifiedTicketRecord :=
  recordFor t (okValue (classify (ticketText t)))

/-- The `for i, ticket in enumerate(tickets_json)` loop of
`load_or_classify_all_tickets`, started at index `i`: sleep before every call
except the first (`if i > 0: time.sleep(4)`), invoke the classifier on
`subject + blank line + body`, append the record on success, and `break` on
the first raised error.  Returns the accumulated records together with the
trace of sleep/call events in the order they happen. -/
def bulkClassifyFrom (classify : String → Except String Classification)
    (i : Nat) :
    List Ticket → List ClassifiedTicketRecord × List PipelineEvent
  | [] => ([], [])
  | t :: ts =>
    let delay := if i > 0 then [PipelineEvent.sleep] else []
    match classify (ticketText t) with
    | .ok c =>
      let rest := bulkClassifyFrom classify (i + 1) ts
      (recordFor t c :: rest.1, delay ++ PipelineEvent.call i :: rest.2)
    | .error _ => ([], delay ++ [PipelineEvent.call i])

/-- Result of one entry into the bulk pipeline: the records served to the
caller, the cache file state afterwards (`none` = absent), and the event
trace. -/
structure PipelineResult where
  records : List ClassifiedTicketRecord
  cacheAfter : Option (List ClassifiedTicketRecord)
  events : List PipelineEvent
deriving Repr, DecidableEq

/-- `load_or_classify_all_tickets` (`app.py`): if the cache file exists its
parsed content is returned as-is; otherwise every ticket is classified in
input order (stopping at the first failure) and the accumulated list —
complete or partial — is written to the cache file wholesale. -/
def load_or_classify_all_tickets
    (classify : String → Except String Classification)
    (tickets_json : List Ticket)
    (cache : Option (List ClassifiedTicketRecord)) : PipelineResult :=
  match cache with
  | some recs => { records := recs, cacheAfter := some recs, events := [] }
  | none =>
    let run := bulkClassifyFrom classify 0 tickets_json
    { records := run.1, cacheAfter := some run.1, events := run.2 }

/-- The 0-based indices of the classifier calls in a trace, in order. -/
def callIndices : List PipelineEvent → List Nat
  | [] => []
  | PipelineEvent.sleep :: es => callIndices es
  | PipelineEvent.call i :: es => i :: callIndices es

/-- The number of fixed delays taken in a trace. -/
def sleepCount : List PipelineEvent → Nat
  | [] => 0
  | PipelineEvent.sleep :: es => sleepCount es + 1
  | PipelineEvent.call _ :: es => sleepCount es

/-- After the first call, the trace must alternate: exactly one sleep
immediately before each further call. -/
def alternatingTail : List PipelineEvent → Bool
  | [] => true
  | PipelineEvent.sleep :: PipelineEvent.call _ :: es => alternatingTail es
  | _ => false

/-- A trace takes the fixed delay exactly before each call except the first:
it is empty, or starts with an undelayed call followed by an alternating
sleep/call tail. -/
def delayDiscipline : List PipelineEvent → Bool
  | [] => true
  | PipelineEvent.call _ :: es => alternatingTail es
  | _ => false

/-- The trace of a run in which the calls at indices `i, i+1, …, i+n-1` all
succeed. -/
def expectedTrace (i : Nat) : Nat → List PipelineEvent
  | 0 => []
  | n + 1 =>
    (if i > 0 then [PipelineEvent.sleep] else []) ++
      PipelineEvent.call i :: expectedTrace (i + 1) n

/-- A retrieved document chunk: `page_content` plus the optional `source` URL
in its metadata (`d.metadata.get("source", "")` supplies `""` when absent). -/
structure DocumentChunk where
  page_content : String
  source : Option String
deriving Repr, DecidableEq

/-- The vector retriever (`FAISS` store): `similarity_search(query, k)`
returns the top-k chunks. -/
structure VectorStore where
  similarity_search : String → Nat → List DocumentChunk

/-- The parts of the prompt f-string built by `get_rag_response_stream`, in
interpolation order: the fixed instruction header, the optional
previous-conversation section, the context block, and the current question. -/
inductive PromptPart where
  | header
  | conversation (history : String)
  | contextBlock (context : String)
  | question (query : String)
deriving Repr, DecidableEq

/-- The language model: `llm.stream(prompt)` yields a finite sequence of
completion chunks for the prompt. -/
structure LLM where
  stream : List PromptPart → List String

/-- One item of the lazy answer stream: a `{"chunk": …}` dict or the terminal
`{"sources": …}` dict. -/
inductive StreamItem where
  | chunk (text : String)
  | sources (urls : List String)
deriving Repr, DecidableEq

/-- Whether a stream item is a `{"sources": …}` item. -/
def isSourcesItem : StreamItem → Bool
  | StreamItem.chunk _ => false
  | StreamItem.sources _ => true

/-- The fallback message yielded when retrieval returns no chunks. -/
def fallback_message : String :=
  "I could not find any relevant documents in the knowledge base to answer your question. Please try rephrasing your query or check the official Atlan documentation."

/-- Lexicographic code-point comparison of character lists, the order Python
`sorted` uses on strings. -/
def charsLtB : List Char → List Char → Bool
  | [], [] => false
  | [], _ :: _ => true
  | _ :: _, [] => false
  | a :: as, b :: bs =>
    if a < b then true
    else if b < a then false
    else charsLtB as bs

/-- Lexicographic code-point comparison of strings. -/
def stringLtB (s t : String) : Bool :=
  charsLtB s.data t.data

/-- Insert a string into a strictly sorted list, keeping it strictly sorted
(skipping duplicates). -/
def insertDedup (x : String) : List String → List String
  | [] => [x]
  | y :: ys =>
    if x = y then y :: ys
    else if stringLtB x y then x :: y :: ys
    else y :: insertDedup x ys

/-- Python `sorted(list(set(l)))`: the distinct elements of `l` in increasing
lexicographic order. -/
def sortedDedup (l : List String) : List String :=
  l.foldr insertDedup []

/-- The sources list computed by `get_rag_response_stream`:
`sorted(list(set(d.metadata.get("source", "") for d in docs)))`. -/
def chunkSources (docs : List DocumentChunk) : List String :=
  sortedDedup (docs.map (fun d => d.source.getD ""))

/-- Python `s.strip()`: the string with leading and trailing whitespace
removed. -/
def pythonStrip (s : String) : String :=
  String.mk
    (((s.data.dropWhile Char.isWhitespace).reverse.dropWhile
        Char.isWhitespace).reverse)

/-- The `conversation_section` string: empty unless the history has
non-whitespace content (`if conversation_history.strip():`), in which case it
is the previous-conversation block wrapping the history verbatim. -/
def conversation_section (conversation_history : String) : String :=
  if pythonStrip conversation_history = "" then ""
  else
    "\n**Previous Conversation:**\n" ++ conversation_history ++ "\n---"

/-- The prompt built by `get_rag_response_stream`, as its interpolated parts
in order; the conversation part is present exactly when
`conversation_section` is non-empty. -/
def ragPromptParts (conversation_history context query : String) :
    List PromptPart :=
  [PromptPart.header] ++
    (if pythonStrip conversation_history = "" then []
     else [PromptPart.conversation conversation_history]) ++
    [PromptPart.contextBlock context, PromptPart.question query]

/-- `get_rag_response_stream` (`modules/rag.py`): retrieve the top-7 chunks;
if none, yield the fallback chunk and an empty sources terminator; otherwise
build the prompt, stream the model completion as `{"chunk"}` items and finish
with the single `{"sources"}` item carrying the sorted deduplicated URLs. -/
def get_rag_response_stream (vector_store : VectorStore) (llm : LLM)
    (query : String) (conversation_history : String) : List StreamItem :=
  let docs := vector_store.similarity_search query 7
  if docs.isEmpty then
    [StreamItem.chunk fallback_message, StreamItem.sources []]
  else
    let context := String.intercalate "\n\n" (docs.map (fun d => d.page_content))
    let sources := chunkSources docs
    let parts := ragPromptParts conversation_history context query
    (llm.stream parts).map StreamItem.chunk ++ [StreamItem.sources sources]

/-- The well-known location of the persisted index (`INDEX_PATH`). -/
def INDEX_PATH : String := "faiss_index"

/-- The error taxonomy of the retriever loader.  `indexNotFound` is the
condition raised by `get_rag_chain` when the persisted index directory is
absent (realised in the source as a `FileNotFoundError` with this message),
distinct from any other failure and catchable by the caller. -/
inductive RagChainError where
  | indexNotFound (message : String)
deriving Repr, DecidableEq

/-- The message of the missing-index error raised by `get_rag_chain`. -/
def indexMissingMessage : String :=
  "FAISS index not found at " ++ INDEX_PATH ++ ". Please run build_index.py first."

/-- `get_rag_chain` (`modules/rag.py`): checks `os.path.exists(INDEX_PATH)`,
raising the missing-index error when the artifact is absent, and otherwise
loads the store and returns it with the model.  The file system and loader
are abstracted as function parameters. -/
def get_rag_chain (path_exists : String → Bool)
    (load_local : String → VectorStore) (llm : LLM) :
    Except RagChainError (VectorStore × LLM) :=
  if path_exists INDEX_PATH then
    Except.ok (load_local INDEX_PATH, llm)
  else
    Except.error (RagChainError.indexNotFound indexMissingMessage)

/-- The JSON values involved in the classification cache file: strings,
arrays and objects (an ordered field list). -/
inductive Json where
  | str (s : String)
  | arr (elems : List Json)
  | obj (fields : List (String × Json))

/-- Field lookup in a JSON object, first match wins (as in a Python dict
built with distinct keys). -/
def lookupField : List (String × Json) → String → Option Json
  | [], _ => none
  | (k, v) :: fs, key => if k = key then some v else lookupField fs key

/-- Read a JSON value as a string. -/
def Json.getStr : Json → Option String
  | .str s => some s
  | _ => none

/-- Read a JSON value as an array. -/
def Json.getArr : Json → Option (List Json)
  | .arr xs => some xs
  | _ => none

/-- Serialisation of a `Classification` (pydantic `model_dump()` followed by
`json.dump`): an object with the five schema fields in declaration order. -/
def encodeClassification (c : Classification) : Json :=
  Json.obj
    [("topic_tags", Json.arr (c.topic_tags.map Json.str)),
     ("sentiment", Json.str c.sentiment),
     ("priority", Json.str c.priority),
     ("summary", Json.str c.summary),
     ("suggested_action", Json.str c.suggested_action)]

/-- Serialisation of one cache record: the dict literal appended to
`results` in `load_or_classify_all_tickets`. -/
def encodeRecord (r : ClassifiedTicketRecord) : Json :=
  Json.obj
    [("id", Json.str r.id),
     ("subject", Json.str r.subject),
     ("body", Json.str r.body),
     ("classification", encodeClassification r.classification)]

/-- What `json.dump(results, f)` writes: the JSON array of the encoded
records in order. -/
def writeClassificationCache (results : List ClassifiedTicketRecord) : Json :=
  Json.arr (results.map encodeRecord)

/-- Parse a JSON array of strings, failing if any element is not a string. -/
def decodeStringList : List Json → Option (List String)
  | [] => some []
  | x :: xs => do
    let s ← x.getStr
    let rest ← decodeStringList xs
    some (s :: rest)

/-- Parse a `Classification` back from its JSON object. -/
def decodeClassification (j : Json) : Option Classification :=
  match j with
  | Json.obj fields => do
    let tagsJson ← lookupField fields "topic_tags"
    let tagsArr ← tagsJson.getArr
    let topic_tags ← decodeStringList tagsArr
    let sentiment ← (← lookupField fields "sentiment").getStr
    let priority ← (← lookupField fields "priority").getStr
    let summary ← (← lookupField fields "summary").getStr
    let suggested_action ← (← lookupField fields "suggested_action").getStr
    some { topic_tags := topic_tags, sentiment := sentiment,
           priority := priority, summary := summary,
           suggested_action := suggested_action }
  | _ => none

/-- Parse one cache record back from its JSON object. -/
def decodeRecord (j : Json) : Option ClassifiedTicketRecord :=
  match j with
  | Json.obj fields => do
    let id ← (← lookupField fields "id").getStr
    let subject ← (← lookupField fields "subject").getStr
    let body ← (← lookupField fields "body").getStr
    let cJson ← lookupField fields "classification"
    let classification ← decodeClassification cJson
    some { id := id, subject := subject, body := body,
           classification := classification }
  | _ => none

/-- Parse a list of cache records element-wise. -/
def decodeRecordList : List Json → Option (List ClassifiedTicketRecord)
  | [] => some []
  | x :: xs => do
    let r ← decodeRecord x
    let rest ← decodeRecordList xs
    some (r :: rest)

/-- What `json.load(f)` yields on the cache file: the record list parsed
element-wise from the top-level JSON array. -/
def loadClassificationCache (j : Json) : Option (List ClassifiedTicketRecord) :=
  match j with
  | Json.arr xs => decodeRecordList xs
  | _ => none

/-- The topics routed to the answer generator by the triage tab
(`rag_topics`, first simulation tab of `app.py`). -/
def triage_rag_topics : List String :=
  ["how-to", "product", "best practices", "api/sdk", "sso"]

/-- The topics routed to the answer generator by the live-chat tab
(`rag_topics`, second simulation tab of `app.py`). -/
def chat_rag_topics : List String :=
  ["how-to", "product", "best practices", "api/sdk", "sso", "glossary",
   "lineage", "connector"]

/-- Python `t.lower()`: every basic latin letter lowered. -/
def lowerString (s : String) : String :=
  String.mk (s.data.map Char.toLower)

/-- The routing condition of both tabs:
`any(t in rag_topics for t in [t.lower() for t in analysis.topic_tags])`. -/
def routesToRag (rag_topics : List String) (topic_tags : List String) : Bool :=
  (topic_tags.map lowerString).any (fun t => rag_topics.contains t)

/-- Destination of an interactive query after classification. -/
inductive RouteTarget where
  | groundedAnswer
  | cannedRouting
deriving Repr, DecidableEq

/-- Routing decision of the triage tab: the answer generator when a lowered
topic tag is in its `rag_topics` list, the canned routing message
otherwise. -/
def triageRoute (topic_tags : List String) : RouteTarget :=
  if routesToRag triage_rag_topics topic_tags then RouteTarget.groundedAnswer
  else RouteTarget.cannedRouting

/-- Routing decision of the live-chat tab, over its larger topic list. -/
def chatRoute (topic_tags : List String) : RouteTarget :=
  if routesToRag chat_rag_topics topic_tags then RouteTarget.groundedAnswer
  else RouteTarget.cannedRouting

/-- A retriever over an index with zero chunks. -/
def emptyStore : VectorStore := ⟨fun _ _ => []⟩

/-- A retriever returning three chunks, two of which share a source URL. -/
def demoStore : VectorStore :=
  ⟨fun _ _ =>
    [{ page_content := "content b", source := some "https://b" },
     { page_content := "content a", source := some "https://a" },
     { page_content := "content b again", source := some "https://b" }]⟩

/-- A retriever returning one sourced chunk and one chunk with no `source`
key in its metadata. -/
def mixedStore : VectorStore :=
  ⟨fun _ _ =>
    [{ page_content := "c1", source := some "https://x" },
     { page_content := "c2", source := none }]⟩

/-- A language model emitting a fixed two-token completion. -/
def demoLLM : LLM := ⟨fun _ => ["Hello ", "world"]⟩

/-- A fixed classifier output used by concrete runs. -/
def demoClassification : Classification :=
  { topic_tags := ["How-to"], sentiment := "Curious", priority := "P2 (Low)",
    summary := "demo", suggested_action := "demo" }

/-- The first two tickets of a five-ticket collection. -/
def demoPre : List Ticket :=
  [{ id := "T1", subject := "s1", body := "b1" },
   { id := "T2", subject := "s2", body := "b2" }]

/-- The third ticket, whose classification call raises. -/
def demoT3 : Ticket := { id := "T3", subject := "s3", body := "b3" }

/-- The last two tickets of the five-ticket collection. -/
def demoPost : List Ticket :=
  [{ id := "T4", subject := "s4", body := "b4" },
   { id := "T5", subject := "s5", body := "b5" }]

/-- A classifier that raises exactly on the third demo ticket and succeeds
elsewhere. -/
def demoClassify (s : String) : Except String Classification :=
  if s = ticketText demoT3 then Except.error "429 rate limited"
  else Except.ok demoClassification

/-- A classifier that always succeeds. -/
def demoClassifyAll (_ : String) : Except String Classification :=
  Except.ok demoClassification

/-! Helper lemmas about traces. -/

theorem callIndices_append (a b : List PipelineEvent) :
    callIndices (a ++ b) = callIndices a ++ callIndices b := by
  induction a with
  | nil => rfl
  | cons e es ih => cases e <;> simp [callIndices, ih]

theorem sleepCount_append (a b : List PipelineEvent) :
    sleepCount (a ++ b) = sleepCount a + sleepCount b := by
  induction a with
  | nil => simp [sleepCount]
  | cons e es ih =>
    cases e
    · simp [sleepCount, ih]
      omega
    · simp [sleepCount, ih]

/-! Claim theorems, from the easy ones up. -/

/-- C2: when the persisted cache file exists, `load_or_classify_all_tickets`
performs zero classifier calls and returns exactly the records parsed from
the file, for every ticket collection and every cached record list — in
particular with no comparison of the record count against the collection
size and no further validation. -/
theorem cache_hit_short_circuits
    (classify : String → Except String Classification)
    (tickets_json : List Ticket) (recs : List ClassifiedTicketRecord) :
    (load_or_classify_all_tickets classify tickets_json (some recs)).records
        = recs ∧
    (load_or_classify_all_tickets classify tickets_json (some recs)).events
        = [] ∧
    callIndices
        (load_or_classify_all_tickets classify tickets_json (some recs)).events
        = [] :=
  ⟨rfl, rfl, rfl⟩

/-- C9: a query tagged only `Glossary`, `Lineage` or `Connector` is routed to
the canned routing message by the triage tab but to the grounded answer
generator by the chat tab, and the triage routable topic set is a strict
subset of the chat routable topic set. -/
theorem routing_topic_sets_strict_subset :
    (triageRoute ["Glossary"] = RouteTarget.cannedRouting ∧
      chatRoute ["Glossary"] = RouteTarget.groundedAnswer) ∧
    (triageRoute ["Lineage"] = RouteTarget.cannedRouting ∧
      chatRoute ["Lineage"] = RouteTarget.groundedAnswer) ∧
    (triageRoute ["Connector"] = RouteTarget.cannedRouting ∧
      chatRoute ["Connector"] = RouteTarget.groundedAnswer) ∧
    triage_rag_topics.all (fun t => chat_rag_topics.contains t) = true ∧
    chat_rag_topics.any (fun t => !(triage_rag_topics.contains t)) = true := by
  decide

/-- C6: `get_rag_chain` fails with the distinct, catchable missing-index
error exactly when the persisted index artifact is absent, and loads the
store successfully when it is present. -/
theorem missing_index_distinct_error (path_exists : String → Bool)
    (load_local : String → VectorStore) (llm : LLM) :
    (path_exists INDEX_PATH = false →
      get_rag_chain path_exists load_local llm =
        Except.error (RagChainError.indexNotFound indexMissingMessage)) ∧
    (path_exists INDEX_PATH = true →
      get_rag_chain path_exists load_local llm =
        Except.ok (load_local INDEX_PATH, llm)) := by
  constructor
  · intro hfalse
    simp [get_rag_chain, hfalse]
  · intro htrue
    simp [get_rag_chain, htrue]

/-- Witness for C6 at a concrete absent and a concrete present file
system. -/
theorem missing_index_distinct_error_check :
    get_rag_chain (fun _ => false) (fun _ => emptyStore) demoLLM =
      Except.error (RagChainError.indexNotFound indexMissingMessage) ∧
    get_rag_chain (fun _ => true) (fun _ => emptyStore) demoLLM =
      Except.ok (emptyStore, demoLLM) :=
  ⟨(missing_index_distinct_error (fun _ => false) (fun _ => emptyStore)
      demoLLM).1 rfl,
   (missing_index_distinct_error (fun _ => true) (fun _ => emptyStore)
      demoLLM).2 rfl⟩

/-- C8 counterexample: with the whitespace-only history `" "` — a non-empty
string — the prompt built by the answer generator does not contain the
prior-conversation part, so presence of the section is not equivalent to the
history being non-empty. -/
theorem conversation_section_nonempty_counterexample :
    ¬ ((PromptPart.conversation " " ∈ ragPromptParts " " "ctx" "q") ↔
        " " ≠ "") := by
  decide

/-- C8 (amended): the prompt passed to the language model by
`get_rag_response_stream` contains the prior-conversation section exactly
when the history has non-whitespace content, i.e. its Python `strip()` is
non-empty. -/
theorem conversation_section_iff_stripped (h c q : String) :
    (PromptPart.conversation h ∈ ragPromptParts h c q) ↔
      pythonStrip h ≠ "" := by
  by_cases ht : pythonStrip h = ""
  · simp [ragPromptParts, ht]
  · simp [ragPromptParts, ht]

/-- C3: when retrieval returns zero chunks, the answer stream is exactly the
fallback chunk followed by the empty sources terminator, whatever the
language model is — in particular no model call influences the output. -/
theorem empty_retrieval_two_item_fallback (vs : VectorStore) (q h : String)
    (hempty : vs.similarity_search q 7 = []) :
    ∀ llm : LLM,
      get_rag_response_stream vs llm q h =
        [StreamItem.chunk fallback_message, StreamItem.sources []] := by
  intro llm
  simp [get_rag_response_stream, hempty]

/-- Witness for C3 on a concrete empty index. -/
theorem empty_retrieval_two_item_fallback_check :
    emptyStore.similarity_search "anything" 7 = [] ∧
    get_rag_response_stream emptyStore demoLLM "anything" "" =
      [StreamItem.chunk fallback_message, StreamItem.sources []] :=
  ⟨rfl, empty_retrieval_two_item_fallback emptyStore "anything" "" rfl demoLLM⟩

/-! Helper lemmas for the bulk loop. -/

theorem bulkClassifyFrom_stops
    (classify : String → Except String Classification)
    (t : Ticket) (post : List Ticket)
    (herr : ∃ msg, classify (ticketText t) = Except.error msg) :
    ∀ (pre : List Ticket) (i : Nat),
      (∀ u ∈ pre, ∃ c, classify (ticketText u) = Except.ok c) →
      (bulkClassifyFrom classify i (pre ++ t :: post)).1 =
          pre.map (recordOf classify) ∧
      callIndices (bulkClassifyFrom classify i (pre ++ t :: post)).2 =
          List.range' i (pre.length + 1) := by
  intro pre
  induction pre with
  | nil =>
    intro i _
    obtain ⟨msg, hmsg⟩ := herr
    refine ⟨?_, ?_⟩
    · simp [bulkClassifyFrom, hmsg]
    · by_cases hi : i > 0
      · simp [bulkClassifyFrom, hmsg, hi, callIndices, List.range']
      · simp [bulkClassifyFrom, hmsg, hi, callIndices, List.range']
  | cons u pre ih =>
    intro i hok
    obtain ⟨c, hc⟩ := hok u (List.mem_cons_self u pre)
    have hok' : ∀ v ∈ pre, ∃ c, classify (ticketText v) = Except.ok c :=
      fun v hv => hok v (List.mem_cons_of_mem u hv)
    obtain ⟨ih1, ih2⟩ := ih (i + 1) hok'
    have hrec : recordOf classify u = recordFor u c := by
      simp [recordOf, okValue, hc]
    refine ⟨?_, ?_⟩
    · simp only [List.cons_append, bulkClassifyFrom, hc, List.map_cons, hrec]
      exact congrArg _ ih1
    · by_cases hi : i > 0
      · simp only [List.cons_append, bulkClassifyFrom, hc, hi, if_pos hi]
        simp only [callIndices, List.cons_append, List.singleton_append,
          List.length_cons]
        simp [List.range', ih2]
      · simp only [List.cons_append, bulkClassifyFrom, hc, if_neg hi]
        simp only [callIndices, List.nil_append, List.length_cons]
        simp [List.range', ih2]

theorem bulkClassifyFrom_success_trace
    (classify : String → Except String Classification) :
    ∀ (ts : List Ticket) (i : Nat),
      (∀ t ∈ ts, ∃ c, classify (ticketText t) = Except.ok c) →
      (bulkClassifyFrom classify i ts).2 = expectedTrace i ts.length := by
  intro ts
  induction ts with
  | nil => intro i _; rfl
  | cons t ts ih =>
    intro i hok
    obtain ⟨c, hc⟩ := hok t (List.mem_cons_self t ts)
    have hok' : ∀ u ∈ ts, ∃ c, classify (ticketText u) = Except.ok c :=
      fun u hu => hok u (List.mem_cons_of_mem t hu)
    simp only [bulkClassifyFrom, hc, List.length_cons, expectedTrace,
      ih (i + 1) hok']

theorem alternatingTail_expectedTrace :
    ∀ (n i : Nat), alternatingTail (expectedTrace (i + 1) n) = true := by
  intro n
  induction n with
  | zero => intro i; rfl
  | succ n ih =>
    intro i
    simp only [expectedTrace, Nat.succ_sub_one, gt_iff_lt,
      Nat.zero_lt_succ, if_pos, List.singleton_append]
    exact ih (i + 1)

theorem delayDiscipline_expectedTrace (n : Nat) :
    delayDiscipline (expectedTrace 0 n) = true := by
  cases n with
  | zero => rfl
  | succ n =>
    simp only [expectedTrace, gt_iff_lt, Nat.lt_irrefl, if_neg,
      List.nil_append]
    show alternatingTail (expectedTrace (0 + 1) n) = true
    exact alternatingTail_expectedTrace n 0

theorem callIndices_expectedTrace :
    ∀ (n i : Nat), callIndices (expectedTrace i n) = List.range' i n := by
  intro n
  induction n with
  | zero => intro i; rfl
  | succ n ih =>
    intro i
    by_cases hi : i > 0
    · simp only [expectedTrace, if_pos hi, List.singleton_append, callIndices,
        ih (i + 1), List.range']
    · simp only [expectedTrace, if_neg hi, List.nil_append, callIndices,
        ih (i + 1), List.range']

theorem sleepCount_expectedTrace_pos :
    ∀ (n i : Nat), sleepCount (expectedTrace (i + 1) n) = n := by
  intro n
  induction n with
  | zero => intro i; rfl
  | succ n ih =>
    intro i
    simp only [expectedTrace, gt_iff_lt, Nat.zero_lt_succ, if_pos,
      List.singleton_append, sleepCount, ih (i + 1)]

theorem sleepCount_expectedTrace_zero (n : Nat) :
    sleepCount (expectedTrace 0 n) = n - 1 := by
  cases n with
  | zero => rfl
  | succ n =>
    simp only [expectedTrace, gt_iff_lt, Nat.lt_irrefl, if_neg,
      List.nil_append, sleepCount, Nat.succ_sub_one]
    exact sleepCount_expectedTrace_pos n 0

/-- C1: in a cache-less bulk run where the first `pre.length` classifier
calls succeed and the next raises, the pipeline returns exactly the records
of the successful prefix in input order, writes exactly that list to the
cache file, and the classifier is called exactly for the tickets up to and
including the failing one — no later ticket is attempted. -/
theorem bulk_failure_writes_prefix
    (classify : String → Except String Classification)
    (pre : List Ticket) (t : Ticket) (post : List Ticket)
    (hok : ∀ u ∈ pre, ∃ c, classify (ticketText u) = Except.ok c)
    (herr : ∃ msg, classify (ticketText t) = Except.error msg) :
    (load_or_classify_all_tickets classify (pre ++ t :: post) none).records =
        pre.map (recordOf classify) ∧
    (load_or_classify_all_tickets classify (pre ++ t :: post) none).cacheAfter
        = some (pre.map (recordOf classify)) ∧
    callIndices
        (load_or_classify_all_tickets classify (pre ++ t :: post) none).events
        = List.range' 0 (pre.length + 1) := by
  obtain ⟨h1, h2⟩ := bulkClassifyFrom_stops classify t post herr pre 0 hok
  exact ⟨h1, congrArg some h1, h2⟩

/-- Witness for C1: five concrete tickets whose third classification call
raises; the pipeline serves and persists exactly the first two records and
calls the classifier exactly three times (indices 0, 1, 2). -/
theorem bulk_failure_writes_prefix_check :
    (load_or_classify_all_tickets demoClassify (demoPre ++ demoT3 :: demoPost)
        none).records = demoPre.map (recordOf demoClassify) ∧
    (load_or_classify_all_tickets demoClassify (demoPre ++ demoT3 :: demoPost)
        none).cacheAfter = some (demoPre.map (recordOf demoClassify)) ∧
    callIndices (load_or_classify_all_tickets demoClassify
        (demoPre ++ demoT3 :: demoPost) none).events =
      List.range' 0 (demoPre.length + 1) :=
  bulk_failure_writes_prefix demoClassify demoPre demoT3 demoPost
    (by
      intro u hu
      refine ⟨demoClassification, ?_⟩
      have hu' : u = { id := "T1", subject := "s1", body := "b1" } ∨
          u = { id := "T2", subject := "s2", body := "b2" } := by
        simpa [demoPre] using hu
      rcases hu' with rfl | rfl
      · rfl
      · rfl)
    ⟨"429 rate limited", rfl⟩

/-- C7: in a cache-less bulk run in which every classification succeeds, the
trace takes the fixed delay exactly before each call except the first — call
0 is undelayed, each later call is immediately preceded by exactly one
delay, the calls are exactly the indices `0 … n-1` in order, and `n - 1`
delays are taken in total. -/
theorem inter_call_delay_discipline
    (classify : String → Except String Classification) (ts : List Ticket)
    (hall : ∀ t ∈ ts, ∃ c, classify (ticketText t) = Except.ok c) :
    delayDiscipline
        (load_or_classify_all_tickets classify ts none).events = true ∧
    callIndices (load_or_classify_all_tickets classify ts none).events =
        List.range' 0 ts.length ∧
    sleepCount (load_or_classify_all_tickets classify ts none).events =
        ts.length - 1 := by
  have htr : (load_or_classify_all_tickets classify ts none).events =
      expectedTrace 0 ts.length :=
    bulkClassifyFrom_success_trace classify ts 0 hall
  rw [htr]
  exact ⟨delayDiscipline_expectedTrace ts.length,
    callIndices_expectedTrace ts.length 0,
    sleepCount_expectedTrace_zero ts.length⟩

/-- Witness for C7 on the concrete five-ticket collection with an
always-succeeding classifier. -/
theorem inter_call_delay_discipline_check :
    delayDiscipline (load_or_classify_all_tickets demoClassifyAll
        (demoPre ++ demoT3 :: demoPost) none).events = true ∧
    callIndices (load_or_classify_all_tickets demoClassifyAll
        (demoPre ++ demoT3 :: demoPost) none).events =
      List.range' 0 (demoPre ++ demoT3 :: demoPost).length ∧
    sleepCount (load_or_classify_all_tickets demoClassifyAll
        (demoPre ++ demoT3 :: demoPost) none).events =
      (demoPre ++ demoT3 :: demoPost).length - 1 :=
  inter_call_delay_discipline demoClassifyAll (demoPre ++ demoT3 :: demoPost)
    (fun _ _ => ⟨demoClassification, rfl⟩)

/-! Helper lemmas for the sorted deduplicated sources list. -/

theorem charsLtB_iff : ∀ (as bs : List Char),
    charsLtB as bs = true ↔ List.lt as bs
  | [], [] => by
    simp only [charsLtB, Bool.false_eq_true, false_iff]
    exact fun h => nomatch h
  | [], b :: bs => by
    simp only [charsLtB, true_iff]
    exact List.lt.nil b bs
  | a :: as, [] => by
    simp only [charsLtB, Bool.false_eq_true, false_iff]
    exact fun h => nomatch h
  | a :: as, b :: bs => by
    by_cases hab : a < b
    · simp only [charsLtB, if_pos hab, true_iff]
      exact List.lt.head as bs hab
    · by_cases hba : b < a
      · simp only [charsLtB, if_neg hab, if_pos hba, Bool.false_eq_true,
          false_iff]
        intro h
        cases h with
        | head _ _ h1 => exact hab h1
        | tail _ h2 _ => exact h2 hba
      · simp only [charsLtB, if_neg hab, if_neg hba, charsLtB_iff as bs]
        constructor
        · exact fun h => List.lt.tail hab hba h
        · intro h
          cases h with
          | head _ _ h1 => exact absurd h1 hab
          | tail _ _ h3 => exact h3

theorem stringLtB_iff (x y : String) : stringLtB x y = true ↔ x < y := by
  rw [stringLtB, charsLtB_iff, List.lt_iff_lex_lt, String.lt_iff_toList_lt]
  constructor
  · intro h
    exact h
  · intro h
    exact h

theorem mem_insertDedup (x a : String) (l : List String) :
    a ∈ insertDedup x l ↔ a = x ∨ a ∈ l := by
  induction l with
  | nil => simp [insertDedup]
  | cons y ys ih =>
    unfold insertDedup
    by_cases hxy : x = y
    · rw [if_pos hxy]
      subst hxy
      simp only [List.mem_cons]
      tauto
    · rw [if_neg hxy]
      by_cases hlt : stringLtB x y = true
      · rw [if_pos hlt]
        simp only [List.mem_cons]
      · rw [if_neg hlt]
        simp only [List.mem_cons, ih]
        tauto

theorem sorted_insertDedup (x : String) (l : List String)
    (hl : l.Sorted (· < ·)) : (insertDedup x l).Sorted (· < ·) := by
  induction l with
  | nil => simp [insertDedup]
  | cons y ys ih =>
    obtain ⟨hy, hys⟩ := List.sorted_cons.mp hl
    by_cases hxy : x = y
    · simpa [insertDedup, hxy] using hl
    · by_cases hlt : stringLtB x y = true
      · have hxy' : x < y := (stringLtB_iff x y).mp hlt
        simp only [insertDedup, if_neg hxy, if_pos hlt]
        refine List.sorted_cons.mpr ⟨?_, hl⟩
        intro b hb
        rcases List.mem_cons.mp hb with rfl | hb
        · exact hxy'
        · exact lt_trans hxy' (hy b hb)
      · have hnlt : ¬ x < y := fun h => hlt ((stringLtB_iff x y).mpr h)
        have hyx : y < x := by
          rcases lt_trichotomy x y with h | h | h
          · exact absurd h hnlt
          · exact absurd h hxy
          · exact h
        simp only [insertDedup, if_neg hxy, if_neg hlt]
        refine List.sorted_cons.mpr ⟨?_, ih hys⟩
        intro b hb
        rcases (mem_insertDedup x b ys).mp hb with rfl | hb
        · exact hyx
        · exact hy b hb

theorem sorted_sortedDedup (l : List String) :
    (sortedDedup l).Sorted (· < ·) := by
  induction l with
  | nil => simp [sortedDedup]
  | cons a l ih => exact sorted_insertDedup a (sortedDedup l) ih

theorem mem_sortedDedup (l : List String) (a : String) :
    a ∈ sortedDedup l ↔ a ∈ l := by
  induction l with
  | nil => simp [sortedDedup]
  | cons b l ih =>
    show a ∈ insertDedup b (sortedDedup l) ↔ _
    rw [mem_insertDedup, ih]
    simp

theorem nodup_sortedDedup (l : List String) : (sortedDedup l).Nodup :=
  (sorted_sortedDedup l).imp (fun h => ne_of_lt h)

theorem string_not_lt_empty (s : String) : ¬ s < "" := by
  intro hlt
  rw [String.lt_iff_toList_lt] at hlt
  have hnil : "".toList = ([] : List Char) := rfl
  rw [hnil] at hlt
  generalize hG : s.toList = l at hlt
  cases hlt

theorem sorted_head_of_mem_empty (s : List String)
    (hs : s.Sorted (· < ·)) (h : "" ∈ s) : s.head? = some "" := by
  cases s with
  | nil => cases h
  | cons a rest =>
    rcases List.mem_cons.mp h with h1 | h2
    · rw [← h1]
      rfl
    · exact absurd ((List.sorted_cons.mp hs).1 "" h2) (string_not_lt_empty a)

theorem filter_sources_map_chunk (toks : List String) :
    (toks.map StreamItem.chunk).filter isSourcesItem = [] := by
  induction toks with
  | nil => rfl
  | cons t ts ih => simp [isSourcesItem, ih]

theorem stream_of_ne_nil (vs : VectorStore) (llm : LLM) (q h : String)
    (hne : vs.similarity_search q 7 ≠ []) :
    get_rag_response_stream vs llm q h =
      (llm.stream (ragPromptParts h
          (String.intercalate "\n\n"
            ((vs.similarity_search q 7).map (fun d => d.page_content)))
          q)).map StreamItem.chunk ++
        [StreamItem.sources (chunkSources (vs.similarity_search q 7))] := by
  have hempty : (vs.similarity_search q 7).isEmpty = false := by
    cases hd : vs.similarity_search q 7 with
    | nil => exact absurd hd hne
    | cons a l => rfl
  simp [get_rag_response_stream, hempty]

/-- C4: when retrieval returns at least one chunk, the answer stream is a
block of `{chunk}` items followed by exactly one `{sources}` item, which is
the last item of the stream and carries the strictly sorted (hence
deduplicated) list of exactly the retrieved chunk source URLs. -/
theorem terminal_sources_sorted_dedup (vs : VectorStore) (llm : LLM)
    (q h : String) (hne : vs.similarity_search q 7 ≠ []) :
    ∃ toks : List String,
      get_rag_response_stream vs llm q h =
          toks.map StreamItem.chunk ++
            [StreamItem.sources (chunkSources (vs.similarity_search q 7))] ∧
      (get_rag_response_stream vs llm q h).filter isSourcesItem =
          [StreamItem.sources (chunkSources (vs.similarity_search q 7))] ∧
      (get_rag_response_stream vs llm q h).getLast? =
          some (StreamItem.sources (chunkSources (vs.similarity_search q 7))) ∧
      (chunkSources (vs.similarity_search q 7)).Sorted (· < ·) ∧
      (chunkSources (vs.similarity_search q 7)).Nodup ∧
      ∀ u, u ∈ chunkSources (vs.similarity_search q 7) ↔
        u ∈ (vs.similarity_search q 7).map (fun d => d.source.getD "") := by
  have hst := stream_of_ne_nil vs llm q h hne
  refine ⟨llm.stream (ragPromptParts h
      (String.intercalate "\n\n"
        ((vs.similarity_search q 7).map (fun d => d.page_content))) q),
    hst, ?_, ?_, sorted_sortedDedup _, nodup_sortedDedup _,
    fun u => mem_sortedDedup _ u⟩
  · rw [hst, List.filter_append, filter_sources_map_chunk]
    rfl
  · rw [hst, List.getLast?_concat]

/-- Witness for C4: three concrete chunks with a duplicated source URL in
unsorted order. -/
theorem terminal_sources_sorted_dedup_check :
    demoStore.similarity_search "q" 7 ≠ [] ∧
    (∃ toks : List String,
      get_rag_response_stream demoStore demoLLM "q" "" =
          toks.map StreamItem.chunk ++
            [StreamItem.sources
              (chunkSources (demoStore.similarity_search "q" 7))] ∧
      (get_rag_response_stream demoStore demoLLM "q" "").filter isSourcesItem =
          [StreamItem.sources
            (chunkSources (demoStore.similarity_search "q" 7))] ∧
      (get_rag_response_stream demoStore demoLLM "q" "").getLast? =
          some (StreamItem.sources
            (chunkSources (demoStore.similarity_search "q" 7))) ∧
      (chunkSources (demoStore.similarity_search "q" 7)).Sorted (· < ·) ∧
      (chunkSources (demoStore.similarity_search "q" 7)).Nodup ∧
      ∀ u, u ∈ chunkSources (demoStore.similarity_search "q" 7) ↔
        u ∈ (demoStore.similarity_search "q" 7).map
          (fun d => d.source.getD "")) :=
  ⟨fun hcontra => by simp [demoStore] at hcontra,
   terminal_sources_sorted_dedup demoStore demoLLM "q" ""
     (fun hcontra => by simp [demoStore] at hcontra)⟩

/-- C10: when some retrieved chunk has no `source` key in its metadata, the
terminal `{sources}` item of the stream still appears and its URL list
contains the empty string, which sorts first; the lookup never fails. -/
theorem missing_source_sorts_first (vs : VectorStore) (llm : LLM)
    (q h : String) (d : DocumentChunk)
    (hd : d ∈ vs.similarity_search q 7) (hnone : d.source = none) :
    "" ∈ chunkSources (vs.similarity_search q 7) ∧
    (chunkSources (vs.similarity_search q 7)).head? = some "" ∧
    (get_rag_response_stream vs llm q h).getLast? =
      some (StreamItem.sources (chunkSources (vs.similarity_search q 7))) := by
  have hne : vs.similarity_search q 7 ≠ [] := by
    intro h0
    rw [h0] at hd
    cases hd
  have hmem : "" ∈ chunkSources (vs.similarity_search q 7) := by
    rw [chunkSources, mem_sortedDedup]
    refine List.mem_map.mpr ⟨d, hd, ?_⟩
    rw [hnone]
    rfl
  refine ⟨hmem, sorted_head_of_mem_empty _ (sorted_sortedDedup _) hmem, ?_⟩
  rw [stream_of_ne_nil vs llm q h hne, List.getLast?_concat]

/-- Witness for C10: a concrete retrieval with one sourced chunk and one
chunk lacking the `source` key. -/
theorem missing_source_sorts_first_check :
    ({ page_content := "c2", source := none } : DocumentChunk) ∈
        mixedStore.similarity_search "q" 7 ∧
    "" ∈ chunkSources (mixedStore.similarity_search "q" 7) ∧
    (chunkSources (mixedStore.similarity_search "q" 7)).head? = some "" ∧
    (get_rag_response_stream mixedStore demoLLM "q" "").getLast? =
      some (StreamItem.sources
        (chunkSources (mixedStore.similarity_search "q" 7))) :=
  ⟨by simp [mixedStore],
   missing_source_sorts_first mixedStore demoLLM "q" ""
     { page_content := "c2", source := none } (by simp [mixedStore]) rfl⟩

/-! Helper lemmas for the cache round-trip. -/

theorem decodeStringList_map_str (l : List String) :
    decodeStringList (l.map Json.str) = some l := by
  induction l with
  | nil => rfl
  | cons a l ih => simp [decodeStringList, Json.getStr, ih]

theorem decodeClassification_encode (c : Classification) :
    decodeClassification (encodeClassification c) = some c := by
  simp [decodeClassification, encodeClassification, lookupField,
    Json.getArr, Json.getStr, decodeStringList_map_str]

theorem decodeRecord_encode (r : ClassifiedTicketRecord) :
    decodeRecord (encodeRecord r) = some r := by
  simp [decodeRecord, encodeRecord, lookupField, Json.getStr,
    decodeClassification_encode]

theorem decodeRecordList_map_encode (recs : List ClassifiedTicketRecord) :
    decodeRecordList (recs.map encodeRecord) = some recs := by
  induction recs with
  | nil => rfl
  | cons r recs ih => simp [decodeRecordList, decodeRecord_encode, ih]

/-- C5: writing the classification cache file from any record sequence and
reloading it yields the identical sequence, record for record and in the
same order. -/
theorem classification_cache_roundtrip (results : List ClassifiedTicketRecord) :
    loadClassificationCache (writeClassificationCache results) =
      some results := by
  simp [loadClassificationCache, writeClassificationCache,
    decodeRecordList_map_encode]
